import Mathlib

/-!
Verification development for the viflowmananger repository.

This file gives a shallow embedding of the deployment-orchestration core of
the repository (slug utilities, zip entry-path validation, the runtime
detector directory search, the deployment log and status store, the port
allocator, the container cleanup sequence, the nginx configuration writer
and the external command invocations) and proves or refutes the frozen
claims about it.

Strings from the source are modelled as Lean String values or as List Char
where character-level regular expression rewriting is involved.  Filesystem
trees are modelled as a nested inductive of directories.  External effects
(docker, nginx, certbot) are modelled by passing the outcome of each
external command as an explicit input.
-/

namespace ViFlow

/-! ## Slug utilities, from src/unnamed/part_012 (slug helper module)

The source function generateSlug is the chain
lowercase, NFD normalize, strip combining marks, strip characters outside
the class a-z 0-9 whitespace hyphen, trim, collapse whitespace runs to a
single hyphen, collapse hyphen runs, drop one leading and one trailing
hyphen.  The two Unicode library calls (toLowerCase and normalize NFD) are
taken as parameters of the embedding; the single fact used about them,
namely that both are the identity on strings made of lowercase ASCII
alphanumerics and hyphens, is a hypothesis of the idempotence theorem and
is discharged with the identity function in the witness. -/

/-- Character class a-z. -/
def isLowerAlpha (c : Char) : Bool :=
  'a' ≤ c && c ≤ 'z'

/-- Character class 0-9. -/
def isDigit (c : Char) : Bool :=
  '0' ≤ c && c ≤ '9'

/-- Characters matched by the JavaScript regular expression class backslash-s
(whitespace), given by code point. -/
def isJsSpace (c : Char) : Bool :=
  c.toNat == 0x20 || c.toNat == 0x9 || c.toNat == 0xa || c.toNat == 0xd ||
  c.toNat == 0xb || c.toNat == 0xc ||
  c.toNat == 0xa0 || c.toNat == 0x1680 ||
  (0x2000 ≤ c.toNat && c.toNat ≤ 0x200a) ||
  c.toNat == 0x2028 || c.toNat == 0x2029 || c.toNat == 0x202f ||
  c.toNat == 0x205f || c.toNat == 0x3000 || c.toNat == 0xfeff

/-- Combining diacritical marks, the class U+0300 to U+036F removed by the
third step of generateSlug. -/
def isCombiningMark (c : Char) : Bool :=
  0x300 ≤ c.toNat && c.toNat ≤ 0x36f

/-- Characters kept by the fourth step of generateSlug, the complement of
the class outside a-z 0-9 whitespace hyphen. -/
def isKeptBySlugFilter (c : Char) : Bool :=
  isLowerAlpha c || isDigit c || isJsSpace c || c == '-'

/-- Replacement of every maximal run of characters satisfying p by the
single character rep, the semantics of a global regex replace of a
one-character-class plus pattern.  The boolean flag records whether the
previous character was inside a run. -/
def collapseRuns (p : Char → Bool) (rep : Char) : List Char → Bool → List Char
  | [], _ => []
  | c :: cs, inRun =>
    if p c then
      if inRun then collapseRuns p rep cs true
      else rep :: collapseRuns p rep cs true
    else c :: collapseRuns p rep cs false

/-- Trim of leading and trailing whitespace, the semantics of the trim
call in generateSlug. -/
def jsTrim (l : List Char) : List Char :=
  ((l.dropWhile isJsSpace).reverse.dropWhile isJsSpace).reverse

/-- Removal of one leading hyphen, first half of the final regex replace of
generateSlug. -/
def dropOneLeadingHyphen (l : List Char) : List Char :=
  match l with
  | c :: rest => if c = '-' then rest else l
  | [] => l

/-- Removal of one trailing hyphen, second half of the final regex replace
of generateSlug. -/
def dropOneTrailingHyphen (l : List Char) : List Char :=
  match l.reverse with
  | c :: rest => if c = '-' then rest.reverse else l
  | [] => l

/-- Embedding of generateSlug from the slug helper module.  The parameters
lowerFn and nfdFn stand for the Unicode library calls toLowerCase and
normalize NFD applied in the first two steps; the remaining six steps are
the regex replacements of the source, in source order. -/
def generateSlug (lowerFn nfdFn : List Char → List Char) (name : List Char) : List Char :=
  dropOneTrailingHyphen (dropOneLeadingHyphen
    (collapseRuns (fun c => c == '-') '-'
      (collapseRuns isJsSpace '-'
        (jsTrim
          (((nfdFn (lowerFn name)).filter
              (fun c => !isCombiningMark c)).filter
            (fun c => isKeptBySlugFilter c))) false) false))

/-- Tail of the slug grammar matcher: after an alphanumeric character, the
rest of the string must be alphanumerics with single hyphens that are each
followed by at least one alphanumeric. -/
def validSlugTail : List Char → Bool
  | [] => true
  | c :: cs =>
    if isLowerAlpha c || isDigit c then validSlugTail cs
    else if c == '-' then
      match cs with
      | [] => false
      | d :: ds => (isLowerAlpha d || isDigit d) && validSlugTail ds
    else false

/-- Embedding of isValidSlug from the slug helper module: the anchored
regular expression requiring one or more lowercase alphanumerics, then any
number of groups of a single hyphen followed by one or more lowercase
alphanumerics. -/
def isValidSlug : List Char → Bool
  | [] => false
  | c :: cs => (isLowerAlpha c || isDigit c) && validSlugTail cs

example : isValidSlug "abc-123".toList = true := by decide
example : isValidSlug "a--b".toList = false := by decide
example : isValidSlug "-ab".toList = false := by decide
example : isValidSlug "ab-".toList = false := by decide
example : generateSlug (List.map Char.toLower) id "My Site 42!".toList = "my-site-42".toList := by
  decide
example : generateSlug id id "abc-123".toList = "abc-123".toList := by decide

/-- Characters that may occur in a valid slug: lowercase ASCII letters,
ASCII digits and the hyphen. -/
def slugChar (c : Char) : Bool :=
  isLowerAlpha c || isDigit c || c == '-'

theorem slugChar_toNat (c : Char) (h : slugChar c = true) :
    c.toNat = 45 ∨ (48 ≤ c.toNat ∧ c.toNat ≤ 57) ∨ (97 ≤ c.toNat ∧ c.toNat ≤ 122) := by
  simp [slugChar, isLowerAlpha, isDigit] at h
  rcases h with (⟨h1, h2⟩ | ⟨h1, h2⟩) | h3
  · exact Or.inr (Or.inr ⟨h1, h2⟩)
  · exact Or.inr (Or.inl ⟨h1, h2⟩)
  · subst h3; left; rfl

theorem slugChar_not_space (c : Char) (h : slugChar c = true) : isJsSpace c = false := by
  have hb := slugChar_toNat c h
  simp [isJsSpace]
  omega

theorem slugChar_not_combining (c : Char) (h : slugChar c = true) :
    isCombiningMark c = false := by
  have hb := slugChar_toNat c h
  simp [isCombiningMark]
  omega

theorem slugChar_kept (c : Char) (h : slugChar c = true) : isKeptBySlugFilter c = true := by
  simp [slugChar] at h
  simp [isKeptBySlugFilter]
  tauto

theorem alnum_slugChar (c : Char) (h : (isLowerAlpha c || isDigit c) = true) :
    slugChar c = true := by
  simp [slugChar]
  simp at h
  tauto

theorem alnum_ne_hyphen (c : Char) (h : (isLowerAlpha c || isDigit c) = true) : ¬c = '-' := by
  intro hc
  subst hc
  revert h
  decide

theorem validSlugTail_chars (t : List Char) (ht : validSlugTail t = true) :
    ∀ c ∈ t, slugChar c = true := by
  induction t using validSlugTail.induct with
  | case1 =>
    intro c hc
    cases hc
  | case2 d ds halnum ih =>
    rw [validSlugTail.eq_def] at ht
    simp only [halnum, if_true] at ht
    intro c hc
    rcases List.mem_cons.mp hc with hc | hc
    · subst hc; exact alnum_slugChar c halnum
    · exact ih ht c hc
  | case3 d halnum hhy =>
    have halnum' : (isLowerAlpha d || isDigit d) = false := by simpa using halnum
    rw [validSlugTail.eq_def] at ht
    simp [halnum', hhy] at ht
  | case4 d halnum hhy d1 ds ih =>
    have halnum' : (isLowerAlpha d || isDigit d) = false := by simpa using halnum
    rw [validSlugTail.eq_def] at ht
    simp [halnum', hhy] at ht
    intro c hc
    rcases List.mem_cons.mp hc with hc | hc
    · subst hc
      simp [slugChar, hhy]
    rcases List.mem_cons.mp hc with hc | hc
    · subst hc
      apply alnum_slugChar
      simp
      tauto
    · exact ih ht.2 c hc
  | case5 d ds halnum hhy =>
    have halnum' : (isLowerAlpha d || isDigit d) = false := by simpa using halnum
    rw [validSlugTail.eq_def] at ht
    simp [halnum', hhy] at ht

theorem validSlugTail_getLast (t : List Char) (ht : validSlugTail t = true) :
    ∀ c, (isLowerAlpha c || isDigit c) = true →
      ∃ d, (c :: t).getLast? = some d ∧ (isLowerAlpha d || isDigit d) = true := by
  induction t using validSlugTail.induct with
  | case1 =>
    intro c hc
    exact ⟨c, rfl, hc⟩
  | case2 d ds halnum ih =>
    rw [validSlugTail.eq_def] at ht
    simp only [halnum, if_true] at ht
    intro c _
    obtain ⟨e, he, hea⟩ := ih ht d halnum
    exact ⟨e, by rw [List.getLast?_cons_cons]; exact he, hea⟩
  | case3 d halnum hhy =>
    have halnum' : (isLowerAlpha d || isDigit d) = false := by simpa using halnum
    rw [validSlugTail.eq_def] at ht
    simp [halnum', hhy] at ht
  | case4 d halnum hhy d1 ds ih =>
    have halnum' : (isLowerAlpha d || isDigit d) = false := by simpa using halnum
    rw [validSlugTail.eq_def] at ht
    simp [halnum', hhy] at ht
    intro c _
    have hd1 : (isLowerAlpha d1 || isDigit d1) = true := by simp; tauto
    obtain ⟨e, he, hea⟩ := ih ht.2 d1 hd1
    refine ⟨e, ?_, hea⟩
    rw [List.getLast?_cons_cons, List.getLast?_cons_cons]
    exact he
  | case5 d ds halnum hhy =>
    have halnum' : (isLowerAlpha d || isDigit d) = false := by simpa using halnum
    rw [validSlugTail.eq_def] at ht
    simp [halnum', hhy] at ht

theorem collapseRuns_hyphen_validTail (t : List Char) (ht : validSlugTail t = true) :
    collapseRuns (fun c => c == '-') '-' t false = t := by
  induction t using validSlugTail.induct with
  | case1 => rfl
  | case2 d ds halnum ih =>
    rw [validSlugTail.eq_def] at ht
    simp only [halnum, if_true] at ht
    have hd : (d == '-') = false := by
      simp
      exact alnum_ne_hyphen d halnum
    simp [collapseRuns, hd]
    exact ih ht
  | case3 d halnum hhy =>
    have halnum' : (isLowerAlpha d || isDigit d) = false := by simpa using halnum
    rw [validSlugTail.eq_def] at ht
    simp [halnum', hhy] at ht
  | case4 d halnum hhy d1 ds ih =>
    have halnum' : (isLowerAlpha d || isDigit d) = false := by simpa using halnum
    rw [validSlugTail.eq_def] at ht
    simp [halnum', hhy] at ht
    obtain ⟨hd1, hds⟩ := ht
    have hdeq : d = '-' := by simpa using hhy
    have hd1f : (d1 == '-') = false := by
      simp
      apply alnum_ne_hyphen
      simp
      tauto
    subst hdeq
    simp [collapseRuns, hd1f]
    exact ih (by simp [hds])
  | case5 d ds halnum hhy =>
    have halnum' : (isLowerAlpha d || isDigit d) = false := by simpa using halnum
    rw [validSlugTail.eq_def] at ht
    simp [halnum', hhy] at ht

theorem dropWhile_eq_self_of_not (p : Char → Bool) (l : List Char)
    (h : ∀ c ∈ l, p c = false) : l.dropWhile p = l := by
  cases l with
  | nil => rfl
  | cons c cs =>
    rw [List.dropWhile_cons, h c (List.mem_cons_self c cs)]
    simp

theorem jsTrim_eq_self (l : List Char) (h : ∀ c ∈ l, isJsSpace c = false) :
    jsTrim l = l := by
  unfold jsTrim
  rw [dropWhile_eq_self_of_not _ _ h]
  rw [dropWhile_eq_self_of_not _ _ (fun c hc => h c (List.mem_reverse.mp hc))]
  exact List.reverse_reverse l

theorem collapseRuns_eq_self_of_not (p : Char → Bool) (rep : Char) :
    ∀ (l : List Char) (flag : Bool), (∀ c ∈ l, p c = false) →
      collapseRuns p rep l flag = l := by
  intro l
  induction l with
  | nil => intro flag _; rfl
  | cons c cs ih =>
    intro flag h
    have hc := h c (List.mem_cons_self c cs)
    simp [collapseRuns, hc]
    exact ih false (fun d hd => h d (List.mem_cons_of_mem c hd))

theorem valid_chars (s : List Char) (hs : isValidSlug s = true) :
    ∀ c ∈ s, slugChar c = true := by
  cases s with
  | nil => cases hs
  | cons c cs =>
    simp only [isValidSlug, Bool.and_eq_true] at hs
    obtain ⟨h1, h2⟩ := hs
    intro x hx
    rcases List.mem_cons.mp hx with hx | hx
    · subst hx; exact alnum_slugChar _ h1
    · exact validSlugTail_chars cs h2 x hx

/-- Claim C9: generateSlug is idempotent on valid slugs.  For every string
satisfying the slug validity grammar of isValidSlug, applying generateSlug
returns the string unchanged.  The hypotheses on the two Unicode library
parameters state the one fact used about the real toLowerCase and NFD
normalization, namely that both leave strings of lowercase ASCII
alphanumerics and hyphens unchanged. -/
theorem C9_generateSlug_idempotent (lowerFn nfdFn : List Char → List Char)
    (hLower : ∀ l, (∀ c ∈ l, slugChar c = true) → lowerFn l = l)
    (hNfd : ∀ l, (∀ c ∈ l, slugChar c = true) → nfdFn l = l)
    (s : List Char) (hs : isValidSlug s = true) :
    generateSlug lowerFn nfdFn s = s := by
  have hchars : ∀ c ∈ s, slugChar c = true := valid_chars s hs
  unfold generateSlug
  rw [hLower s hchars, hNfd s hchars]
  have hf1 : s.filter (fun c => !isCombiningMark c) = s :=
    List.filter_eq_self.mpr
      (fun c hc => by simp [slugChar_not_combining c (hchars c hc)])
  have hf2 : s.filter (fun c => isKeptBySlugFilter c) = s :=
    List.filter_eq_self.mpr (fun c hc => slugChar_kept c (hchars c hc))
  rw [hf1, hf2]
  rw [jsTrim_eq_self s (fun c hc => slugChar_not_space c (hchars c hc))]
  rw [collapseRuns_eq_self_of_not isJsSpace '-' s false
    (fun c hc => slugChar_not_space c (hchars c hc))]
  cases s with
  | nil => cases hs
  | cons c cs =>
    simp only [isValidSlug, Bool.and_eq_true] at hs
    obtain ⟨h1, h2⟩ := hs
    have hcf : (c == '-') = false := by
      simp
      exact alnum_ne_hyphen c h1
    rw [collapseRuns]
    simp only [hcf, Bool.false_eq_true, if_false]
    rw [collapseRuns_hyphen_validTail cs h2]
    rw [dropOneLeadingHyphen]
    simp only [alnum_ne_hyphen c h1, if_false, ite_false]
    obtain ⟨d, hd, hda⟩ := validSlugTail_getLast cs h2 c h1
    rw [dropOneTrailingHyphen]
    cases hrev : (c :: cs).reverse with
    | nil => simp at hrev
    | cons e rest =>
      have hed : some e = some d := by
        rw [← List.head?_reverse] at hd
        rw [hrev] at hd
        simpa using hd
      have he : e = d := by injection hed
      rw [he]
      show (if d = '-' then rest.reverse else c :: cs) = c :: cs
      rw [if_neg (alnum_ne_hyphen d hda)]

/-- Witness for claim C9 at a concrete valid slug, with both Unicode
parameters instantiated by the identity function. -/
theorem C9_witness : generateSlug id id ("abc-123".toList) = "abc-123".toList :=
  C9_generateSlug_idempotent id id (fun _ _ => rfl) (fun _ _ => rfl) _ (by decide)

/-! ## Deployment records and logs

Embedding of the deployment rows touched by
src/apps/backend/src/services/deployment.service.ts and by the log helper
and direct log writes of src/apps/backend/src/routes/site.routes.ts.  The
prisma deployment table is modelled as an association list from deployment
id to a record of status, optional message and nullable log text; a prisma
update on a missing id rejects, which is modelled as an Except error. -/

/-- Deployment lifecycle status, the enum stored on a deployment row. -/
inductive DeployStatus where
  | QUEUED
  | RUNNING
  | SUCCESS
  | FAILED
deriving DecidableEq

/-- One deployment row: status, optional message, nullable log text. -/
structure DeploymentRec where
  status : DeployStatus
  message : Option String
  log : Option String
deriving DecidableEq

/-- The deployment table, an association list from id to row. -/
abbrev DeploymentStore := List (String × DeploymentRec)

/-- Lookup of a row by unique id, modelling findUnique. -/
def findDeployment : DeploymentStore → String → Option DeploymentRec
  | [], _ => none
  | (k, v) :: rest, id => if k == id then some v else findDeployment rest id

/-- Update of the row with the given unique id, modelling a prisma update
on a store in which the id is present. -/
def updateDeployment : DeploymentStore → String → (DeploymentRec → DeploymentRec) →
    DeploymentStore
  | [], _, _ => []
  | (k, v) :: rest, id, f =>
    if k == id then (k, f v) :: rest else (k, v) :: updateDeployment rest id f

/-- Embedding of DeploymentService.appendLog: read the row, and when it is
absent only log a warning and return; otherwise append the line plus a
newline to the current log (empty string when the log is null) and write
the result back. -/
def appendLog (s : DeploymentStore) (id logLine : String) : Except String DeploymentStore :=
  match findDeployment s id with
  | none => Except.ok s
  | some d =>
    let currentLog := d.log.getD ""
    let newLog := currentLog ++ logLine ++ "\n"
    Except.ok (updateDeployment s id
      (fun r => DeploymentRec.mk r.status r.message (some newLog)))

/-- Embedding of the appendLog helper at the top of site.routes.ts: read
the current log (empty when the row is absent or the log null), then
unconditionally update the row with the concatenation; the update rejects
when the id is absent. -/
def appendLogRoute (s : DeploymentStore) (id message : String) :
    Except String DeploymentStore :=
  let current := findDeployment s id
  let newLog := (current.bind (fun d => d.log)).getD "" ++ message
  match current with
  | none => Except.error "Record to update not found."
  | some _ =>
    Except.ok (updateDeployment s id
      (fun r => DeploymentRec.mk r.status r.message (some newLog)))

/-- The initial log write of the upload route (site.routes.ts lines 220 to
223): a direct update setting the log field to the extraction message,
replacing whatever is stored. -/
def setExtractingLog (s : DeploymentStore) (id : String) : Except String DeploymentStore :=
  match findDeployment s id with
  | none => Except.error "Record to update not found."
  | some _ =>
    Except.ok (updateDeployment s id
      (fun r => DeploymentRec.mk r.status r.message (some "Extracting ZIP file...\n")))

/-- Embedding of DeploymentService.updateDeploymentStatus: an unconditional
update of status and message (the source also stamps startedAt or
finishedAt, which the claims do not mention). -/
def updateDeploymentStatus (s : DeploymentStore) (id : String) (status : DeployStatus)
    (message : Option String) : Except String DeploymentStore :=
  match findDeployment s id with
  | none => Except.error "Record to update not found."
  | some _ =>
    Except.ok (updateDeployment s id
      (fun r => DeploymentRec.mk status message r.log))

theorem findDeployment_update (s : DeploymentStore) (id : String)
    (f : DeploymentRec → DeploymentRec) :
    findDeployment (updateDeployment s id f) id = (findDeployment s id).map f := by
  induction s with
  | nil => rfl
  | cons p rest ih =>
    obtain ⟨k, v⟩ := p
    by_cases hk : (k == id) = true
    · simp [updateDeployment, findDeployment, hk]
    · have hk' : (k == id) = false := by simpa using hk
      simp [updateDeployment, findDeployment, hk']
      exact ih

/-- Claim C10: calling the log-append operation with a deployment id that
does not exist completes without raising and leaves the store unchanged. -/
theorem C10_appendLog_missing_id (s : DeploymentStore) (id line : String)
    (h : findDeployment s id = none) : appendLog s id line = Except.ok s := by
  unfold appendLog
  rw [h]

/-- Witness for claim C10 on a store that does not contain the id. -/
theorem C10_witness :
    findDeployment [] "missing" = none ∧
      appendLog [] "missing" "line" = Except.ok [] :=
  ⟨rfl, C10_appendLog_missing_id [] "missing" "line" rfl⟩

/-- Counterexample for claim C4 as stated: the upload route writes the
initial extraction message by setting the log field directly (site.routes.ts
lines 220 to 223); applied to a deployment whose stored log is nonempty,
the previous log text is not a prefix of the new log. -/
theorem C4_counterexample :
    setExtractingLog [("d1", DeploymentRec.mk DeployStatus.RUNNING none (some "previous"))] "d1"
        = Except.ok
            [("d1", DeploymentRec.mk DeployStatus.RUNNING none (some "Extracting ZIP file...\n"))] ∧
      ¬ ("previous".toList <+: "Extracting ZIP file...\n".toList) := by
  constructor
  · rfl
  · decide

/-- The stored log text of a deployment row, null and missing both read as
absent. -/
def logOf (s : DeploymentStore) (id : String) : Option String :=
  (findDeployment s id).bind (fun d => d.log)

theorem appendLog_found (s : DeploymentStore) (id line : String) (d : DeploymentRec)
    (hfind : findDeployment s id = some d) :
    appendLog s id line
      = Except.ok (updateDeployment s id
          (fun r => DeploymentRec.mk r.status r.message
            (some (d.log.getD "" ++ line ++ "\n")))) := by
  unfold appendLog
  rw [hfind]

/-- Claim C4 amended: the two log-append operations (the service method and
the route helper) always leave the previous log as a prefix of the new log,
and two appends in sequence leave the second content as a suffix; the
direct extraction-message write of the upload route replaces the log, but
coincides with an append exactly when the stored log is empty, which is the
only state the route applies it to (the row is created just before, without
a log). -/
theorem C4_amended_append_only (s : DeploymentStore) (id l1 l2 : String)
    (d : DeploymentRec) (hfind : findDeployment s id = some d) :
    (∃ s1 s2, appendLog s id l1 = Except.ok s1 ∧
      logOf s1 id = some (d.log.getD "" ++ (l1 ++ "\n")) ∧
      appendLog s1 id l2 = Except.ok s2 ∧
      logOf s2 id = some ((d.log.getD "" ++ (l1 ++ "\n")) ++ (l2 ++ "\n"))) ∧
    (∃ s3, appendLogRoute s id l1 = Except.ok s3 ∧
      logOf s3 id = some (d.log.getD "" ++ l1)) ∧
    (d.log = none →
      ∃ s4, setExtractingLog s id = Except.ok s4 ∧
        logOf s4 id = some (d.log.getD "" ++ "Extracting ZIP file...\n")) := by
  have h1 := appendLog_found s id l1 d hfind
  have hfind1 : findDeployment (updateDeployment s id
        (fun r => DeploymentRec.mk r.status r.message
          (some (d.log.getD "" ++ l1 ++ "\n")))) id
      = some (DeploymentRec.mk d.status d.message (some (d.log.getD "" ++ l1 ++ "\n"))) := by
    rw [findDeployment_update, hfind]
    rfl
  have h2 := appendLog_found _ id l2 _ hfind1
  have hfind2 : findDeployment (updateDeployment (updateDeployment s id
          (fun r => DeploymentRec.mk r.status r.message
            (some (d.log.getD "" ++ l1 ++ "\n")))) id
        (fun r => DeploymentRec.mk r.status r.message
          (some ((DeploymentRec.mk d.status d.message
              (some (d.log.getD "" ++ l1 ++ "\n"))).log.getD "" ++ l2 ++ "\n")))) id
      = some (DeploymentRec.mk d.status d.message
          (some (d.log.getD "" ++ l1 ++ "\n" ++ l2 ++ "\n"))) := by
    rw [findDeployment_update, hfind1]
    rfl
  refine ⟨⟨_, _, h1, ?_, h2, ?_⟩, ?_, ?_⟩
  · unfold logOf
    rw [hfind1]
    simp [String.append_assoc]
  · unfold logOf
    rw [hfind2]
    simp [String.append_assoc]
  · have h3 : appendLogRoute s id l1
        = Except.ok (updateDeployment s id
            (fun r => DeploymentRec.mk r.status r.message
              (some (d.log.getD "" ++ l1)))) := by
      unfold appendLogRoute
      rw [hfind]
      exact rfl
    refine ⟨_, h3, ?_⟩
    unfold logOf
    rw [findDeployment_update, hfind]
    rfl
  · intro hnone
    have h4 : setExtractingLog s id
        = Except.ok (updateDeployment s id
            (fun r => DeploymentRec.mk r.status r.message
              (some "Extracting ZIP file...\n"))) := by
      unfold setExtractingLog
      rw [hfind]
    refine ⟨_, h4, ?_⟩
    unfold logOf
    rw [findDeployment_update, hfind]
    simp [hnone]

/-- Witness for the amended claim C4 on a freshly created deployment row. -/
theorem C4_amended_witness :
    ∃ s1 s2,
      appendLog [("d1", DeploymentRec.mk DeployStatus.RUNNING none none)] "d1" "a"
          = Except.ok s1 ∧
      logOf s1 "d1" = some ("" ++ ("a" ++ "\n")) ∧
      appendLog s1 "d1" "b" = Except.ok s2 ∧
      logOf s2 "d1" = some (("" ++ ("a" ++ "\n")) ++ ("b" ++ "\n")) :=
  (C4_amended_append_only [("d1", DeploymentRec.mk DeployStatus.RUNNING none none)]
    "d1" "a" "b" (DeploymentRec.mk DeployStatus.RUNNING none none) rfl).1

/-! ## Deployment status transitions

Embedding of the status updates performed for one deployment job.  A job
record is created in QUEUED by the deploy route, and the worker of
src/apps/backend/src/queue/deploy.worker.ts then calls
updateDeploymentStatus with RUNNING before launching the deployment script
and, depending on the script outcome, exactly one of SUCCESS (exit code
zero) or FAILED (nonzero exit code, or an exception in the job body). -/

/-- Outcome of one worker job body: the spawned script exited with a code,
or the body threw before or while running it. -/
inductive JobOutcome where
  | exited (code : Nat)
  | threw

/-- The sequence of statuses the worker writes for one job, in order. -/
def workerStatusUpdates : JobOutcome → List DeployStatus
  | .exited code => [.RUNNING, if code == 0 then .SUCCESS else .FAILED]
  | .threw => [.RUNNING, .FAILED]

/-- The full status history of a queued deployment job: created QUEUED by
the deploy route, then the worker updates in order. -/
def jobStatusHistory (outcome : JobOutcome) : List DeployStatus :=
  .QUEUED :: workerStatusUpdates outcome

/-- The transition relation of the claimed status chain. -/
def statusStep : DeployStatus → DeployStatus → Bool
  | .QUEUED, .RUNNING => true
  | .RUNNING, .SUCCESS => true
  | .RUNNING, .FAILED => true
  | _, _ => false

/-- Terminal statuses. -/
def isTerminal : DeployStatus → Bool
  | .SUCCESS => true
  | .FAILED => true
  | _ => false

/-- Boolean check that consecutive statuses of a history follow the
transition relation. -/
def statusChainOk : List DeployStatus → Bool
  | [] => true
  | [_] => true
  | a :: b :: t => statusStep a b && statusChainOk (b :: t)

/-- Claim C5: for every job outcome, the status history of a deployment
job moves one-directionally along QUEUED, RUNNING, then SUCCESS or FAILED:
consecutive statuses follow the chain, the history ends in a terminal
status, and no terminal status occurs before the last position, so the
worker never moves a job out of a terminal state or backwards. -/
theorem C5_status_transitions (outcome : JobOutcome) :
    statusChainOk (jobStatusHistory outcome) = true ∧
      (jobStatusHistory outcome).getLast?.map isTerminal = some true ∧
      (jobStatusHistory outcome).dropLast.all (fun s => !isTerminal s) = true := by
  cases outcome with
  | exited code =>
    by_cases h : (code == 0) = true
    · simp [jobStatusHistory, workerStatusUpdates, h, statusChainOk, statusStep, isTerminal]
    · have h' : (code == 0) = false := by simpa using h
      simp [jobStatusHistory, workerStatusUpdates, h', statusChainOk, statusStep, isTerminal]
  | threw =>
    simp [jobStatusHistory, workerStatusUpdates, statusChainOk, statusStep, isTerminal]

/-! ## Port allocation, from DockerService.getAvailablePort
(src/apps/backend/src/services/docker.service.ts lines 25 to 51)

The source keeps a static set of used ports; on each call it parses the
currently active docker port mappings and adds them to the set, then scans
upward from BASE_PORT for the first port not in the set, adds that port to
the set and returns it.  The parsed snapshot is modelled as an input list
of port numbers; the static set as explicit state threaded through the
calls. -/

/-- Base port of the allocator. -/
def BASE_PORT : Nat := 8100

theorem filter_le_length_lt (used : List Nat) (p : Nat) (hp : p ∈ used) :
    (used.filter (fun q => decide (p + 1 ≤ q))).length
      < (used.filter (fun q => decide (p ≤ q))).length := by
  induction used with
  | nil => cases hp
  | cons a t ih =>
    rcases List.mem_cons.mp hp with rfl | hmem
    · have hmono : (t.filter (fun q => decide (p + 1 ≤ q))).length
          ≤ (t.filter (fun q => decide (p ≤ q))).length :=
        (List.monotone_filter_right t (fun b hb => by simp at hb ⊢; omega)).length_le
      simp [List.filter_cons]
      omega
    · have ht := ih hmem
      by_cases h1 : p + 1 ≤ a
      · have h2 : p ≤ a := by omega
        simp [List.filter_cons, h1, h2]
        omega
      · by_cases h2 : p ≤ a
        · simp [List.filter_cons, h1, h2]
          omega
        · simp [List.filter_cons, h1, h2]
          omega

/-- The scan loop of getAvailablePort: increment the candidate port while
it is in the used set. -/
def findFreePort (used : List Nat) (p : Nat) : Nat :=
  if hp : p ∈ used then findFreePort used (p + 1) else p
termination_by (used.filter (fun q => decide (p ≤ q))).length
decreasing_by exact filter_le_length_lt used p hp

theorem findFreePort_spec (used : List Nat) (p : Nat) :
    findFreePort used p ∉ used ∧ p ≤ findFreePort used p ∧
      ∀ q, p ≤ q → q ∉ used → findFreePort used p ≤ q := by
  induction p using findFreePort.induct with
  | used => exact used
  | case1 p hp ih =>
    obtain ⟨ih1, ih2, ih3⟩ := ih
    have heq : findFreePort used p = findFreePort used (p + 1) := by
      rw [findFreePort]
      exact dif_pos hp
    rw [heq]
    refine ⟨ih1, by omega, ?_⟩
    intro q hq hnq
    have hq1 : p + 1 ≤ q := by
      rcases Nat.eq_or_lt_of_le hq with rfl | h
      · exact absurd hp hnq
      · omega
    exact ih3 q hq1 hnq
  | case2 p hp =>
    have heq : findFreePort used p = p := by
      rw [findFreePort]
      exact dif_neg hp
    rw [heq]
    exact ⟨hp, Nat.le_refl p, fun q hq _ => hq⟩

/-- Embedding of getAvailablePort: the ports of the docker ps snapshot are
added to the used set, the scan returns the lowest port at or above
BASE_PORT not in the set, and the returned port is recorded as used.  The
pair is the returned port and the updated static set. -/
def getAvailablePort (snapshot : List Nat) (usedPorts : List Nat) : Nat × List Nat :=
  let used1 := usedPorts ++ snapshot
  let port := findFreePort used1 BASE_PORT
  (port, port :: used1)

/-- A sequence of allocator calls, each with the snapshot observed at that
call, threading the static used set. -/
def runAllocate : List (List Nat) → List Nat → List Nat × List Nat
  | [], used => ([], used)
  | snap :: rest, used =>
    let pr := getAvailablePort snap used
    let r := runAllocate rest pr.2
    (pr.1 :: r.1, r.2)

/-- Claim C8: the allocator returns the lowest port at or above 8100 that
is free with respect to the used set merged with the snapshot taken at
call time; in particular the result is never a port of that snapshot, and
this holds along every sequence of allocation calls. -/
theorem C8_port_allocation (snapshot usedPorts : List Nat) :
    (getAvailablePort snapshot usedPorts).1 ∉ snapshot ∧
      (getAvailablePort snapshot usedPorts).1 ∉ usedPorts ∧
      BASE_PORT ≤ (getAvailablePort snapshot usedPorts).1 ∧
      (∀ q, BASE_PORT ≤ q → q ∉ usedPorts → q ∉ snapshot →
        (getAvailablePort snapshot usedPorts).1 ≤ q) ∧
      (∀ (snaps : List (List Nat)) (used0 : List Nat)
          (pr : Nat × List Nat),
        pr ∈ (runAllocate snaps used0).1.zip snaps → pr.1 ∉ pr.2) := by
  obtain ⟨h1, h2, h3⟩ := findFreePort_spec (usedPorts ++ snapshot) BASE_PORT
  refine ⟨?_, ?_, h2, ?_, ?_⟩
  · intro hmem
    exact h1 (List.mem_append.mpr (Or.inr hmem))
  · intro hmem
    exact h1 (List.mem_append.mpr (Or.inl hmem))
  · intro q hq hq1 hq2
    exact h3 q hq (fun hmem => (List.mem_append.mp hmem).elim hq1 hq2)
  · intro snaps
    induction snaps with
    | nil =>
      intro used0 pr hpr
      simp [runAllocate] at hpr
    | cons snap rest ih =>
      intro used0 pr hpr
      simp only [runAllocate, List.zip_cons_cons] at hpr
      rcases List.mem_cons.mp hpr with rfl | hpr
      · obtain ⟨g1, _, _⟩ := findFreePort_spec (used0 ++ snap) BASE_PORT
        intro hmem
        exact g1 (List.mem_append.mpr (Or.inr hmem))
      · exact ih _ pr hpr

/-- Witness for claim C8: with used set containing 8100 and 8101 through
the snapshot, the allocator returns a port bounded by 8102, and along the
one-call sequence with snapshot containing 8100 the allocated port 8101 is
not in that snapshot. -/
theorem C8_witness :
    (BASE_PORT ≤ 8102 ∧ (8102 : Nat) ∉ ([] : List Nat) ∧ (8102 : Nat) ∉ [8100, 8101] ∧
      (getAvailablePort [8100, 8101] []).1 ≤ 8102) ∧
      (((8101 : Nat), [(8100 : Nat)]) ∈ (runAllocate [[8100]] []).1.zip [[8100]] ∧
        (8101 : Nat) ∉ [(8100 : Nat)]) := by
  have hm : ((8101 : Nat), [(8100 : Nat)]) ∈ (runAllocate [[8100]] []).1.zip [[8100]] := by
    simp [runAllocate, getAvailablePort, findFreePort, BASE_PORT]
  refine ⟨⟨by decide, by decide, by decide, ?_⟩, hm, ?_⟩
  · exact (C8_port_allocation [8100, 8101] []).2.2.2.1 8102 (by decide) (by decide) (by decide)
  · exact (C8_port_allocation [] []).2.2.2.2 [[8100]] [] (8101, [8100]) hm

/-! ## Runtime detector search, from DockerService.findViFlowDll
(src/apps/backend/src/services/docker.service.ts lines 56 to 96)

The source checks for the entry dll in the extraction root; when absent it
recursively walks subdirectories with an explicit depth parameter, guarded
by a check depth > 2 at the head of each recursive call, checking each
directory entry for the dll before descending into it and moving to the
next sibling only after the whole subtree of the current entry has been
searched.  The extracted filesystem is modelled as a tree of directories,
each with its file names and its subdirectories in readdir order; paths
are lists of name segments relative to the extraction root. -/

/-- Name of the entry artifact searched for. -/
def dllName : String := "ViCon.ViFlow.WebModel.Server.dll"

/-- A directory of the extracted tree: file names and named subdirectories
in readdir order. -/
structure Dir where
  files : List String
  subdirs : List (String × Dir)

/-- Check for the entry dll directly in a directory, the fs access call of
the source. -/
def hasDllFile (d : Dir) : Bool := d.files.contains dllName

theorem sizeOf_subdirs_lt (d : Dir) : sizeOf (d.subdirs) < sizeOf d := by
  cases d with
  | mk fs sd => simp_arith

mutual

/-- The recursive searchDirs closure of findViFlowDll: give up once the
depth parameter exceeds 2, otherwise walk the entries of the directory. -/
def searchDirs (d : Dir) (path : List String) (depth : Nat) : Option (List String) :=
  if depth > 2 then none
  else searchEntries d.subdirs path depth
termination_by sizeOf d
decreasing_by exact sizeOf_subdirs_lt d

/-- The entry loop of searchDirs: for each subdirectory, return its path
if it holds the dll, otherwise recurse into it with depth + 1 before
moving to the next sibling. -/
def searchEntries (entries : List (String × Dir)) (path : List String) (depth : Nat) :
    Option (List String) :=
  match entries with
  | [] => none
  | (name, sub) :: rest =>
    if hasDllFile sub then some (path ++ [name])
    else
      match searchDirs sub (path ++ [name]) (depth + 1) with
      | some found => some found
      | none => searchEntries rest path depth
termination_by sizeOf entries

end

/-- Embedding of DockerService.findViFlowDll: the root (path modelled as
the empty segment list) is checked first, then searchDirs starting at
depth 0. -/
def findViFlowDll (d : Dir) : Option (List String) :=
  if hasDllFile d then some [] else searchDirs d [] 0

/-- Claim-side definition, following the words of the spec: the entry
artifact is present at the root of the tree or within k further
subdirectory levels. -/
def dllWithinSpec : Nat → Dir → Bool
  | 0, d => hasDllFile d
  | k + 1, d => hasDllFile d || d.subdirs.any (fun ns => dllWithinSpec k ns.2)

/-- Structurally recursive reformulation of the entry loop, used to
evaluate the search on concrete trees: scan a list of subdirectories,
descending with the given continuation. -/
def searchLevel (f : Dir → List String → Option (List String)) :
    List (String × Dir) → List String → Option (List String)
  | [], _ => none
  | (name, sub) :: rest, path =>
    if hasDllFile sub then some (path ++ [name])
    else
      match f sub (path ++ [name]) with
      | some found => some found
      | none => searchLevel f rest path

/-- Structurally recursive reformulation of searchDirs with the remaining
descent budget counted downward; proved equal to searchDirs below. -/
def searchToDepth : Nat → Dir → List String → Option (List String)
  | 0, _, _ => none
  | b + 1, d, path => searchLevel (searchToDepth b) d.subdirs path

theorem searchEntries_eq_level (k : Nat) : ∀ (depth : Nat), 2 - depth = k →
    ∀ (entries : List (String × Dir)) (path : List String),
      searchEntries entries path depth = searchLevel (searchToDepth k) entries path := by
  induction k with
  | zero =>
    intro depth hk entries path
    induction entries with
    | nil => rw [searchEntries.eq_def, searchLevel]
    | cons ns rest ih =>
      obtain ⟨name, sub⟩ := ns
      have hguard : searchDirs sub (path ++ [name]) (depth + 1) = none := by
        rw [searchDirs.eq_def]
        have hgt : depth + 1 > 2 := by omega
        simp [hgt]
      rw [searchEntries.eq_def]
      cases hs : hasDllFile sub with
      | true => simp [searchLevel, hs]
      | false => simp [searchLevel, searchToDepth, hs, hguard, ih]
  | succ k ihk =>
    intro depth hk entries path
    induction entries with
    | nil => rw [searchEntries.eq_def, searchLevel]
    | cons ns rest ih =>
      obtain ⟨name, sub⟩ := ns
      have hdesc : searchDirs sub (path ++ [name]) (depth + 1)
          = searchToDepth (k + 1) sub (path ++ [name]) := by
        rw [searchDirs.eq_def]
        have hng : ¬(depth + 1 > 2) := by omega
        simp only [hng, if_false]
        rw [ihk (depth + 1) (by omega) sub.subdirs (path ++ [name])]
        rfl
      rw [searchEntries.eq_def]
      cases hs : hasDllFile sub with
      | true => simp [searchLevel, hs]
      | false => simp [searchLevel, hs, hdesc, ih]

theorem searchDirs_eq_toDepth (d : Dir) (path : List String) (depth : Nat) :
    searchDirs d path depth = searchToDepth (3 - depth) d path := by
  rw [searchDirs.eq_def]
  by_cases h : depth > 2
  · have h0 : 3 - depth = 0 := by omega
    simp [h, h0, searchToDepth]
  · have hk : 3 - depth = (2 - depth) + 1 := by omega
    simp only [h, if_false]
    rw [hk, searchEntries_eq_level (2 - depth) depth rfl d.subdirs path]
    rfl

theorem findViFlowDll_eval (d : Dir) :
    findViFlowDll d = if hasDllFile d then some [] else searchToDepth 3 d [] := by
  unfold findViFlowDll
  rw [searchDirs_eq_toDepth]

theorem search_none_iff (k : Nat) : ∀ (depth : Nat), depth ≤ 2 → 2 - depth = k →
    ∀ (entries : List (String × Dir)) (path : List String),
      (searchEntries entries path depth = none ↔
        entries.all (fun ns => !dllWithinSpec k ns.2) = true) := by
  induction k with
  | zero =>
    intro depth hd hk entries path
    have hdepth : depth = 2 := by omega
    subst hdepth
    induction entries with
    | nil => simp [searchEntries.eq_def]
    | cons ns rest ih =>
      obtain ⟨name, sub⟩ := ns
      rw [searchEntries.eq_def]
      have h3 : searchDirs sub (path ++ [name]) 3 = none := by
        rw [searchDirs.eq_def]
        simp
      cases hs : hasDllFile sub with
      | true => simp [hs, dllWithinSpec]
      | false =>
        simp only [hs, Bool.false_eq_true, if_false, h3]
        rw [List.all_cons]
        simp only [Bool.not_eq_true', Bool.and_eq_true]
        have hz : dllWithinSpec 0 sub = false := by simp [dllWithinSpec, hs]
        exact ⟨fun h => ⟨hz, ih.mp h⟩, fun h => ih.mpr h.2⟩
  | succ k ihk =>
    intro depth hd hk entries path
    induction entries with
    | nil => simp [searchEntries.eq_def]
    | cons ns rest ih =>
      obtain ⟨name, sub⟩ := ns
      rw [searchEntries.eq_def]
      have hsub : searchDirs sub (path ++ [name]) (depth + 1) = none ↔
          sub.subdirs.all (fun ns => !dllWithinSpec k ns.2) = true := by
        rw [searchDirs.eq_def]
        have hng : ¬(depth + 1 > 2) := by omega
        simp only [hng, if_false]
        exact ihk (depth + 1) (by omega) (by omega) sub.subdirs (path ++ [name])
      cases hs : hasDllFile sub with
      | true => simp [hs, dllWithinSpec]
      | false =>
        simp only [hs, Bool.false_eq_true, if_false]
        rw [List.all_cons]
        simp only [Bool.not_eq_true', Bool.and_eq_true]
        have hwithin : dllWithinSpec (k + 1) sub = false ↔
            sub.subdirs.all (fun ns => !dllWithinSpec k ns.2) = true := by
          simp only [dllWithinSpec, hs, Bool.false_or]
          rw [List.any_eq_false, List.all_eq_true]
          constructor
          · intro hf x hx
            simp [hf x hx]
          · intro hf x hx
            have := hf x hx
            simpa using this
        cases hfound : searchDirs sub (path ++ [name]) (depth + 1) with
        | some v =>
          simp only [hfound]
          have hnall : ¬(sub.subdirs.all (fun ns => !dllWithinSpec k ns.2) = true) := by
            intro hall
            rw [← hsub] at hall
            rw [hall] at hfound
            cases hfound
          constructor
          · intro hcon
            cases hcon
          · intro hcon
            exact absurd (hwithin.mp hcon.1) hnall
        | none =>
          simp only [hfound]
          have hw : dllWithinSpec (k + 1) sub = false := hwithin.mpr (hsub.mp hfound)
          exact ⟨fun h => ⟨hw, ih.mp h⟩, fun h => ih.mpr h.2⟩

theorem findViFlowDll_none_iff (d : Dir) :
    findViFlowDll d = none ↔ dllWithinSpec 3 d = false := by
  unfold findViFlowDll
  cases hs : hasDllFile d with
  | true => simp [hs, dllWithinSpec]
  | false =>
    simp only [hs, Bool.false_eq_true, if_false]
    rw [searchDirs.eq_def]
    simp only [show ¬(0 > 2) by omega, if_false]
    rw [search_none_iff 2 0 (by omega) rfl d.subdirs []]
    simp only [dllWithinSpec, hs, Bool.false_or]
    rw [List.any_eq_false, List.all_eq_true]
    constructor
    · intro hf x hx
      have := hf x hx
      simpa using this
    · intro hf x hx
      simp [hf x hx]

/-- The detector error message of the upload route. -/
def notFoundMsg : String :=
  "Kein ViFlow Export erkannt. Die Datei \"ViCon.ViFlow.WebModel.Server.dll\" wurde nicht gefunden."

/-- Outcome of the upload route as far as the deployment row and the site
runtime tag are concerned. -/
structure UploadResult where
  status : DeployStatus
  message : String
  runtimeTagWritten : Option String
deriving DecidableEq

/-- Embedding of the deployment outcome of the upload route
(site.routes.ts lines 227 to 344 and the catch handler): when
findViFlowDll yields none an AppError with the specific not-found message
is thrown and the catch handler marks the deployment FAILED with that
message; the site runtime tag is written only by the success-path site
update.  Failures of the later pipeline steps are summarized by an
optional error message. -/
def uploadRouteOutcome (tree : Dir) (detected : String) (laterFailure : Option String) :
    UploadResult :=
  match findViFlowDll tree with
  | none => UploadResult.mk DeployStatus.FAILED notFoundMsg none
  | some _ =>
    match laterFailure with
    | some m => UploadResult.mk DeployStatus.FAILED m none
    | none => UploadResult.mk DeployStatus.SUCCESS "Container deployed" (some detected)

/-- Level-three directory of the counterexample tree, holding the dll. -/
def c3TreeLevel3 : Dir := Dir.mk [dllName] []

/-- Level-two directory of the counterexample tree. -/
def c3TreeLevel2 : Dir := Dir.mk [] [("c", c3TreeLevel3)]

/-- Level-one directory of the counterexample tree. -/
def c3TreeLevel1 : Dir := Dir.mk [] [("b", c3TreeLevel2)]

/-- Tree whose only dll sits three subdirectory levels below the root. -/
def deepViFlowTree : Dir := Dir.mk [] [("a", c3TreeLevel1)]

/-- First subdirectory of the order tree: the dll two levels down. -/
def c3OrderDeep : Dir := Dir.mk [] [("y", c3TreeLevel3)]

/-- Tree with a dll two levels deep under the first entry and a dll one
level deep under the second entry: a breadth-first search would find the
shallow one under z first. -/
def orderViFlowTree : Dir := Dir.mk [] [("x", c3OrderDeep), ("z", c3TreeLevel3)]

/-- Counterexample for claim C3 as stated: with the entry artifact absent
from the root and from the first two subdirectory levels (dllWithinSpec 2
is false) the claim requires the detector to return none, but the search
descends a third level and finds the dll; and the search is depth-first,
returning the deeper dll under the first entry x rather than the shallower
dll under the later sibling z that a breadth-first search would reach
first. -/
theorem C3_counterexample :
    (dllWithinSpec 2 deepViFlowTree = false ∧
      findViFlowDll deepViFlowTree = some ["a", "b", "c"]) ∧
      findViFlowDll orderViFlowTree = some ["x", "y"] := by
  refine ⟨⟨by decide, ?_⟩, ?_⟩
  · rw [findViFlowDll_eval]
    decide
  · rw [findViFlowDll_eval]
    decide

/-- Claim C3 amended: the detector checks the extraction root first and
then searches subdirectories depth-first with the depth parameter guarded
by depth > 2, which admits the entry file up to three subdirectory levels
deep; it returns none exactly when the entry artifact is absent from the
root and from every subdirectory up to that bound, and none is a hard
failure: the upload route marks the deployment FAILED with the specific
not-found message and never writes a runtime tag. -/
theorem C3_amended_detector (tree : Dir) (detected : String) (laterFailure : Option String) :
    (findViFlowDll tree = none ↔ dllWithinSpec 3 tree = false) ∧
      (findViFlowDll tree = none →
        uploadRouteOutcome tree detected laterFailure
          = UploadResult.mk DeployStatus.FAILED notFoundMsg none) := by
  refine ⟨findViFlowDll_none_iff tree, ?_⟩
  intro h
  unfold uploadRouteOutcome
  rw [h]

/-- Witness for the amended claim C3 on the empty extraction tree. -/
theorem C3_witness :
    findViFlowDll (Dir.mk [] []) = none ∧
      uploadRouteOutcome (Dir.mk [] []) "8" none
        = UploadResult.mk DeployStatus.FAILED notFoundMsg none := by
  have hnone : findViFlowDll (Dir.mk [] []) = none := by
    rw [findViFlowDll_eval]
    decide
  exact ⟨hnone, (C3_amended_detector (Dir.mk [] []) "8" none).2 hnone⟩

/-! ## Site teardown, from DockerService.cleanup
(src/apps/backend/src/services/docker.service.ts lines 571 to 647)

The host resources of one site are modelled by presence flags.  Each raw
external command can fail (modelled in Except); docker stop and docker
network rm fail when the resource is absent, while the helper methods
removeContainer, removeImage, removeNginxConfig and removeCertificate
catch internally and only log.  The cleanup method wraps every step in its
own try/catch block that logs the failure and continues, in the source
order: stop sidecar, remove sidecar, stop application container, remove
application container, remove network, remove image, remove nginx
configuration, remove certificate, then optionally the upload
directory. -/

/-- Presence flags of the host resources of one site. -/
structure SiteWorld where
  authContainer : Bool
  viflowContainer : Bool
  network : Bool
  image : Bool
  nginxConf : Bool
  certificate : Bool
  uploadDir : Bool
deriving DecidableEq

/-- The cleanup steps, in source order. -/
inductive CleanupStep where
  | stopAuth
  | removeAuth
  | stopApp
  | removeApp
  | removeNetwork
  | removeImage
  | removeNginx
  | removeCert
  | removeUploads
deriving DecidableEq

/-- Raw docker stop: fails when the container is absent (the stopContainer
helper rethrows this failure). -/
def stopContainerOp (present : Bool) : Except String Unit :=
  if present then Except.ok () else Except.error "No such container"

/-- Raw docker network rm: fails when the network is absent. -/
def networkRmOp (present : Bool) : Except String Unit :=
  if present then Except.ok () else Except.error "network not found"

/-- The removeContainer helper: docker rm -f of a possibly absent
container, caught internally with only a warning; never fails. -/
def removeContainerOp (present : Bool) : Except String Unit :=
  match (if present then Except.ok () else Except.error "No such container" :
      Except String Unit) with
  | Except.ok _ => Except.ok ()
  | Except.error _ => Except.ok ()

/-- The removeImage helper: docker rmi -f, caught internally. -/
def removeImageOp (present : Bool) : Except String Unit :=
  match (if present then Except.ok () else Except.error "No such image" :
      Except String Unit) with
  | Except.ok _ => Except.ok ()
  | Except.error _ => Except.ok ()

/-- The removeNginxConfig helper: rm -f of the rule file plus a reload,
caught internally. -/
def removeNginxConfigOp (_present : Bool) : Except String Unit := Except.ok ()

/-- The removeCertificate helper: certbot delete, caught internally. -/
def removeCertificateOp (present : Bool) : Except String Unit :=
  match (if present then Except.ok () else Except.error "No certificate found" :
      Except String Unit) with
  | Except.ok _ => Except.ok ()
  | Except.error _ => Except.ok ()

/-- Removal of the upload directory with fs.rm recursive force, wrapped in
try/catch as well; force means absence is not an error. -/
def removeUploadsOp (_present : Bool) : Except String Unit := Except.ok ()

/-- One try/catch block of cleanup: run the step, record it in the trace,
and count a warning instead of propagating when the step fails. -/
def attemptStep (acc : List CleanupStep × Nat) (st : CleanupStep) (act : Except String Unit) :
    List CleanupStep × Nat :=
  match act with
  | Except.ok _ => (acc.1 ++ [st], acc.2)
  | Except.error _ => (acc.1 ++ [st], acc.2 + 1)

/-- Result of a cleanup call: the remaining resources, the steps attempted
in order, and the number of failures that were caught and logged. -/
structure CleanupResult where
  world : SiteWorld
  steps : List CleanupStep
  warnings : Nat
deriving DecidableEq

/-- Embedding of DockerService.cleanup.  Every step sits in its own
try/catch block (attemptStep), so no step failure escapes; the Except
return type records that an unguarded failure would propagate, and the
straight-line body shows there is none. -/
def cleanup (w : SiteWorld) (deleteUploadDir : Bool) : Except String CleanupResult :=
  let a1 := attemptStep ([], 0) CleanupStep.stopAuth (stopContainerOp w.authContainer)
  let a2 := attemptStep a1 CleanupStep.removeAuth (removeContainerOp w.authContainer)
  let a3 := attemptStep a2 CleanupStep.stopApp (stopContainerOp w.viflowContainer)
  let a4 := attemptStep a3 CleanupStep.removeApp (removeContainerOp w.viflowContainer)
  let a5 := attemptStep a4 CleanupStep.removeNetwork (networkRmOp w.network)
  let a6 := attemptStep a5 CleanupStep.removeImage (removeImageOp w.image)
  let a7 := attemptStep a6 CleanupStep.removeNginx (removeNginxConfigOp w.nginxConf)
  let a8 := attemptStep a7 CleanupStep.removeCert (removeCertificateOp w.certificate)
  if deleteUploadDir then
    let a9 := attemptStep a8 CleanupStep.removeUploads (removeUploadsOp w.uploadDir)
    Except.ok (CleanupResult.mk (SiteWorld.mk false false false false false false false)
      a9.1 a9.2)
  else
    Except.ok (CleanupResult.mk (SiteWorld.mk false false false false false false w.uploadDir)
      a8.1 a8.2)

/-- The fixed order of cleanup steps: sidecar container, application
container, network, image, edge configuration, certificate, then
optionally the uploaded files. -/
def cleanupOrder (deleteUploadDir : Bool) : List CleanupStep :=
  [CleanupStep.stopAuth, CleanupStep.removeAuth, CleanupStep.stopApp, CleanupStep.removeApp,
    CleanupStep.removeNetwork, CleanupStep.removeImage, CleanupStep.removeNginx,
    CleanupStep.removeCert] ++
    (if deleteUploadDir then [CleanupStep.removeUploads] else [])

theorem attemptStep_steps (acc : List CleanupStep × Nat) (st : CleanupStep)
    (act : Except String Unit) : (attemptStep acc st act).1 = acc.1 ++ [st] := by
  cases act <;> rfl

/-- Claim C6: cleanup never raises for any combination of present and
absent resources; it attempts every step, in the fixed order sidecar
container, application container, network, image, edge configuration,
certificate, then optionally uploaded files; afterwards every resource is
absent (the upload directory only when requested), and a second call on
the resulting world again completes with the full step sequence, each
absent resource only producing a logged warning. -/
theorem C6_cleanup_total_ordered (w : SiteWorld) (deleteUploadDir : Bool) :
    ∃ r : CleanupResult, cleanup w deleteUploadDir = Except.ok r ∧
      r.steps = cleanupOrder deleteUploadDir ∧
      r.world.authContainer = false ∧ r.world.viflowContainer = false ∧
      r.world.network = false ∧ r.world.image = false ∧
      r.world.nginxConf = false ∧ r.world.certificate = false ∧
      r.world.uploadDir = (!deleteUploadDir && w.uploadDir) ∧
      ∃ r2 : CleanupResult, cleanup r.world deleteUploadDir = Except.ok r2 ∧
        r2.steps = cleanupOrder deleteUploadDir := by
  cases deleteUploadDir with
  | true =>
    refine ⟨_, rfl, ?_, rfl, rfl, rfl, rfl, rfl, rfl, by simp, _, rfl, ?_⟩ <;>
      simp [cleanup, attemptStep_steps, cleanupOrder]
  | false =>
    refine ⟨_, rfl, ?_, rfl, rfl, rfl, rfl, rfl, rfl, by simp, _, rfl, ?_⟩ <;>
      simp [cleanup, attemptStep_steps, cleanupOrder]

/-! ## Edge configuration writer, from DockerService.updateNginxConfig
(src/apps/backend/src/services/docker.service.ts lines 422 to 485)

The function writes the rule to a temporary file, moves it into the nginx
directory, sets its mode, runs the nginx syntax test, reloads nginx, and
then requests a certificate with certbot inside an inner try/catch whose
failure is only logged; any failure of the earlier commands reaches the
outer catch, which rethrows with a Failed-to-update-Nginx message.  The
outcome of each external command is an input flag. -/

/-- External commands run by updateNginxConfig, in order. -/
inductive NginxCmd where
  | writeTemp
  | moveConf
  | chmodConf
  | nginxTest
  | nginxReload
  | certbotRun
deriving DecidableEq

/-- Outcomes of the external commands invoked by updateNginxConfig. -/
structure NginxEnv where
  moveOk : Bool
  chmodOk : Bool
  testOk : Bool
  reloadOk : Bool
  certbotOk : Bool
deriving DecidableEq

/-- Embedding of updateNginxConfig: the pair of the overall result and the
trace of commands started, with a flag recording whether the certbot
failure warning was logged.  Certbot failure is caught by the inner
try/catch and never escapes; every earlier failure aborts the sequence and
is rethrown by the outer catch with the Failed-to-update-Nginx prefix. -/
def updateNginxConfig (env : NginxEnv) : Except String Unit × List NginxCmd × Bool :=
  let t1 := [NginxCmd.writeTemp, NginxCmd.moveConf]
  if !env.moveOk then
    (Except.error "Failed to update Nginx: mv failed", t1, false)
  else
    let t2 := t1 ++ [NginxCmd.chmodConf]
    if !env.chmodOk then
      (Except.error "Failed to update Nginx: chmod failed", t2, false)
    else
      let t3 := t2 ++ [NginxCmd.nginxTest]
      if !env.testOk then
        (Except.error "Failed to update Nginx: nginx configuration test failed", t3, false)
      else
        let t4 := t3 ++ [NginxCmd.nginxReload]
        if !env.reloadOk then
          (Except.error "Failed to update Nginx: nginx reload failed", t4, false)
        else
          let t5 := t4 ++ [NginxCmd.certbotRun]
          (Except.ok (), t5, !env.certbotOk)

/-- Claim C7: a syntax-test failure aborts updateNginxConfig before any
reload: the operation raises and the reload command is never started; a
certificate-issuance failure is non-fatal: with every other command
succeeding the operation completes without raising and only logs the
certbot warning. -/
theorem C7_nginx_failures (env : NginxEnv) :
    (env.moveOk = true → env.chmodOk = true → env.testOk = false →
      (updateNginxConfig env).1
          = Except.error "Failed to update Nginx: nginx configuration test failed" ∧
        NginxCmd.nginxReload ∉ (updateNginxConfig env).2.1) ∧
      (env.moveOk = true → env.chmodOk = true → env.testOk = true → env.reloadOk = true →
        env.certbotOk = false →
        (updateNginxConfig env).1 = Except.ok () ∧
          (updateNginxConfig env).2.2 = true) := by
  constructor
  · intro h1 h2 h3
    constructor <;> simp [updateNginxConfig, h1, h2, h3]
  · intro h1 h2 h3 h4 h5
    constructor <;> simp [updateNginxConfig, h1, h2, h3, h4, h5]

/-- Witness for claim C7: one environment with a failing syntax test and
one with only certbot failing. -/
theorem C7_witness :
    ((updateNginxConfig (NginxEnv.mk true true false true true)).1
        = Except.error "Failed to update Nginx: nginx configuration test failed" ∧
      NginxCmd.nginxReload ∉ (updateNginxConfig (NginxEnv.mk true true false true true)).2.1) ∧
      ((updateNginxConfig (NginxEnv.mk true true true true false)).1 = Except.ok () ∧
        (updateNginxConfig (NginxEnv.mk true true true true false)).2.2 = true) :=
  ⟨(C7_nginx_failures (NginxEnv.mk true true false true true)).1 rfl rfl rfl,
    (C7_nginx_failures (NginxEnv.mk true true true true false)).2 rfl rfl rfl rfl rfl⟩

/-! ## External command invocations, from createDeployWorker
(src/apps/backend/src/queue/deploy.worker.ts lines 42 to 51) and from
DockerService.startContainer (docker.service.ts lines 262 to 318)

An invocation is either an argument-vector process start (the spawn call
of the worker, no shell involved) or a command string handed to a shell
(every execAsync call of DockerService, which runs the string through the
child_process exec shell). -/

/-- A process invocation: argument vector or shell command string. -/
inductive Invocation where
  | argv (exe : String) (args : List String)
  | shell (cmd : String)
deriving DecidableEq

/-- Embedding of the worker invocation of the privileged deployment
script: spawn of sudo with the script path and each job parameter as its
own argument-vector element. -/
def deployWorkerInvocation (scriptPath slug domain zipPath basicAuthUser
    basicAuthPassword : String) : Invocation :=
  Invocation.argv "sudo" [scriptPath, slug, domain, zipPath, basicAuthUser, basicAuthPassword]

/-- The auth proxy docker run command string built by startContainer by
interpolating the container and network names, the port, the site display
name and optionally the password into a template string that is then
executed through a shell. -/
def authProxyRunCmd (authContainerName networkName : String) (port : Nat)
    (viflowContainerName siteName : String) (authPassword : Option String) : String :=
  match authPassword with
  | some pw =>
    "docker run -d --name " ++ authContainerName ++ " --network " ++ networkName ++
      " -p " ++ toString port ++ ":3000 " ++
      "-e AUTH_PASSWORD=\"" ++ pw ++ "\" " ++
      "-e BACKEND_URL=\"http://" ++ viflowContainerName ++ ":5001\" " ++
      "-e SITE_NAME=\"" ++ siteName ++ "\" " ++
      "--restart unless-stopped viflow-auth-proxy"
  | none =>
    "docker run -d --name " ++ authContainerName ++ " --network " ++ networkName ++
      " -p " ++ toString port ++ ":3000 " ++
      "-e BACKEND_URL=\"http://" ++ viflowContainerName ++ ":5001\" " ++
      "-e SITE_NAME=\"" ++ siteName ++ "\" " ++
      "--restart unless-stopped viflow-auth-proxy"

/-- The commands started by startContainer for a deployment, in source
order: stop and remove both containers, remove and recreate the network,
run the application container, ensure the auth proxy image, run the auth
proxy container.  Every one is an execAsync shell string. -/
def startContainerInvocations (siteId imageName : String) (port : Nat) (siteName : String)
    (authPassword : Option String) : List Invocation :=
  let viflowContainerName := "viflow-app-" ++ siteId
  let authContainerName := "viflow-auth-" ++ siteId
  let networkName := "viflow-net-" ++ siteId
  [Invocation.shell ("docker stop " ++ authContainerName),
    Invocation.shell ("docker rm -f " ++ authContainerName),
    Invocation.shell ("docker stop " ++ viflowContainerName),
    Invocation.shell ("docker rm -f " ++ viflowContainerName),
    Invocation.shell ("docker network rm " ++ networkName),
    Invocation.shell ("docker network create " ++ networkName),
    Invocation.shell ("docker run -d --name " ++ viflowContainerName ++ " --network " ++
      networkName ++ " --restart unless-stopped " ++ imageName),
    Invocation.shell ("docker image inspect viflow-auth-proxy"),
    Invocation.shell (authProxyRunCmd authContainerName networkName port
      viflowContainerName siteName authPassword)]

/-- Formalization of the claim predicate: every invocation of the list is
an argument-vector invocation with no shell interpretation. -/
def usesArgvOnly (l : List Invocation) : Bool :=
  l.all (fun i =>
    match i with
    | Invocation.argv _ _ => true
    | Invocation.shell _ => false)

/-- Substring test on character lists, used to exhibit a parameter
interpolated into a shell command string. -/
def containsChars (needle : List Char) : List Char → Bool
  | [] => needle.isEmpty
  | c :: rest => needle.isPrefixOf (c :: rest) || containsChars needle rest

set_option maxRecDepth 4000 in
/-- Counterexample for claim C2 as stated: the container start performed on
behalf of a deployment consists of shell command strings, not
argument-vector invocations, and the auth proxy run command contains the
site display name interpolated into the shell string. -/
theorem C2_counterexample :
    usesArgvOnly (startContainerInvocations "s1" "viflow-site-s1" 8100 "My Site" (some "pw"))
        = false ∧
      Invocation.shell (authProxyRunCmd "viflow-auth-s1" "viflow-net-s1" 8100 "viflow-app-s1"
          "My Site" (some "pw"))
        ∈ startContainerInvocations "s1" "viflow-site-s1" 8100 "My Site" (some "pw") ∧
      containsChars "My Site".toList
        (authProxyRunCmd "viflow-auth-s1" "viflow-net-s1" 8100 "viflow-app-s1" "My Site"
          (some "pw")).toList = true := by
  refine ⟨by decide, by decide, by decide⟩

/-- Claim C2 amended: the privileged deployment script is invoked by the
worker with its parameters (slug, domain, archive path, credentials) as
discrete argument-vector elements and no shell, but the container start
commands of DockerService are built by interpolating parameters into
shell command strings, for every choice of parameters. -/
theorem C2_amended_invocations (scriptPath slug domain zipPath user pw siteId
    imageName : String) (port : Nat) (siteName : String) (authPassword : Option String) :
    deployWorkerInvocation scriptPath slug domain zipPath user pw
        = Invocation.argv "sudo" [scriptPath, slug, domain, zipPath, user, pw] ∧
      usesArgvOnly (startContainerInvocations siteId imageName port siteName authPassword)
        = false :=
  ⟨rfl, by simp [startContainerInvocations, usesArgvOnly]⟩

/-! ## Zip entry-path validation, from the zip-validator module
(src/unnamed/part_013) and the extraction step of the upload route
(src/apps/backend/src/routes/site.routes.ts lines 214 to 225)

Entry paths are modelled as an absolute flag plus a list of name segments.
The isPathSafe normalization follows the Node path.normalize semantics on
segments; the two-dot substring test of the source is modelled at segment
granularity and the protocol separator test at character granularity
inside each segment. -/

/-- A zip entry path: absolute flag and name segments. -/
structure EntryPath where
  absolute : Bool
  segs : List String
deriving DecidableEq

/-- Node path normalization on segments: drop dot and empty segments,
cancel a parent segment against a preceding normal segment, keep leading
parent segments of a relative path and drop them at the root of an
absolute path.  The first list is the processed stack in reverse order. -/
def normSegs (absolute : Bool) : List String → List String → List String
  | stack, [] => stack.reverse
  | stack, s :: rest =>
    if s = "." || s = "" then normSegs absolute stack rest
    else if s = ".." then
      match stack with
      | [] => if absolute then normSegs absolute [] rest else normSegs absolute [".."] rest
      | t :: ts =>
        if t = ".." then normSegs absolute (".." :: t :: ts) rest
        else normSegs absolute ts rest
    else normSegs absolute (s :: stack) rest

/-- Normalization of an entry path. -/
def normalizePath (p : EntryPath) : EntryPath :=
  EntryPath.mk p.absolute (normSegs p.absolute [] p.segs)

/-- Detection of the three-character protocol separator inside a
segment. -/
def hasProtocolSep : List Char → Bool
  | ':' :: '/' :: '/' :: _ => true
  | _ :: rest => hasProtocolSep rest
  | [] => false

/-- Embedding of isPathSafe from the zip-validator module: normalize, then
reject an absolute normalized path, a normalized path containing a parent
segment, and a raw path that is absolute or contains a protocol
separator. -/
def isPathSafe (p : EntryPath) : Bool :=
  let n := normalizePath p
  if n.absolute then false
  else if n.segs.any (fun s => s = "..") then false
  else if p.absolute || p.segs.any (fun s => hasProtocolSep s.toList) then false
  else true

/-- Counter state of createZipSafetyCheck. -/
structure ZipCheckState where
  fileCount : Nat
  totalSize : Nat
deriving DecidableEq

/-- The checkPath closure of createZipSafetyCheck: count the entry, reject
past the file-count ceiling (default 10000), otherwise defer to
isPathSafe. -/
def zipCheckPath (maxFiles : Nat) (st : ZipCheckState) (entry : EntryPath) :
    Bool × ZipCheckState :=
  let st1 := ZipCheckState.mk (st.fileCount + 1) st.totalSize
  if st1.fileCount > maxFiles then (false, st1) else (isPathSafe entry, st1)

/-- The checkSize closure of createZipSafetyCheck: accumulate the
uncompressed size, reject past the total-size ceiling (default 5 GiB). -/
def zipCheckSize (maxTotalSize : Nat) (st : ZipCheckState) (size : Nat) :
    Bool × ZipCheckState :=
  let st1 := ZipCheckState.mk st.fileCount (st.totalSize + size)
  if st1.totalSize > maxTotalSize then (false, st1) else (true, st1)

/-- Extraction step of the upload route (site.routes.ts lines 224 to 225):
the archive is extracted with the AdmZip extractAllTo call with overwrite;
the repository code applies no per-entry validation here, and the
createZipSafetyCheck and isPathSafe validators above are not invoked
anywhere in the repository, so every entry of the archive is written and
extraction does not abort on a traversal entry. -/
def uploadExtract (entries : List EntryPath) : Except String (List EntryPath) :=
  Except.ok entries

/-- Claim C1, evaluated at the failing input: the upload-route extraction
accepts an archive whose single entry path is a parent-directory
traversal, completing without aborting and leaving the entry written,
although the unused repository validator isPathSafe (and hence the
checkPath closure of createZipSafetyCheck) classifies exactly this entry
as unsafe. -/
theorem C1_extraction_skips_validation :
    uploadExtract [EntryPath.mk false ["..", "..", "etc", "passwd"]]
        = Except.ok [EntryPath.mk false ["..", "..", "etc", "passwd"]] ∧
      isPathSafe (EntryPath.mk false ["..", "..", "etc", "passwd"]) = false ∧
      (zipCheckPath 10000 (ZipCheckState.mk 0 0)
          (EntryPath.mk false ["..", "..", "etc", "passwd"])).1 = false := by
  refine ⟨rfl, by decide, by decide⟩

end ViFlow
